import Mathlib

/-!
Verification development for the CosyVoice web front end (`webui.py`).

The file shallowly embeds the mode-validation / dispatch pipeline of
`generate_audio`, the reference-audio post-processing stage `postprocess`,
and the seed helper `generate_seed`.  Waveforms are single-channel sample
lists over `Rat` (the source works on float tensors of shape `(1, n)`;
we model the single channel and use exact rationals for the arithmetic).
Side effects (`gr.Warning`, `gr.Info`, generator `yield`s, engine calls,
`set_all_random_seed`) are recorded as an explicit event trace, and a
Python exception terminates the trace with an error outcome.
-/

namespace CosyVoiceWeb

/-- The global normalization ceiling of the source, `max_val = 0.8`. -/
def max_val : Rat := 4 / 5

/-! ### AudioPostProcessor: `postprocess` (webui.py lines 79-88)

`postprocess` always runs with the default arguments
`top_db = 60`, `hop_length = 220`, `win_length = 440`; the constants are
inlined below.  `librosa.effects.trim` computes per-frame rms energy with
`center = True` (constant zero padding of `win_length / 2` on each side),
converts to decibels relative to the loudest frame with clamping constant
`amin` (`amin^2 = 10^-10` in power units), and keeps the samples between the
first and last non-silent frame. -/

/-- The centered, zero-padded signal used for framing (`win_length / 2 = 220`
zeros on each side). -/
def padded (w : List Rat) : List Rat :=
  List.replicate 220 0 ++ w ++ List.replicate 220 0

/-- Mean-square energy of frame `j`: frames of `440` samples at stride `220`
over the padded signal (the square of `librosa.feature.rms`). -/
def mse (w : List Rat) (j : Nat) : Rat :=
  ((((padded w).drop (j * 220)).take 440).map (fun x => x * x)).sum / 440

/-- Number of rms frames of the centered signal: `1 + n / hop_length`. -/
def nFrames (w : List Rat) : Nat := 1 + w.length / 220

/-- Reference power: the maximum frame energy (librosa default `ref = np.max`). -/
def refPow (w : List Rat) : Rat :=
  ((List.range (nFrames w)).map (mse w)).foldr max 0

/-- Frame `j` is non-silent iff its energy is within `top_db = 60` dB of the
reference frame: `10 log10 (max amin (mse j)) - 10 log10 (max amin ref) > -60`,
equivalently `10^6 * max amin (mse j) > max amin ref` with `amin = 10^-10`. -/
def nonsilent (w : List Rat) (j : Nat) : Bool :=
  decide (max (1 / 10000000000) (refPow w) < 1000000 * max (1 / 10000000000) (mse w j))

/-- Indices of the non-silent frames, in order. -/
def nonsilentFrames (w : List Rat) : List Nat :=
  (List.range (nFrames w)).filter (fun j => nonsilent w j)

/-- `librosa.effects.trim`: keep the slice `y[start:end]` with
`start = first_nonsilent * hop` and
`end = min n ((last_nonsilent + 1) * hop)`; if no frame is non-silent the
result is empty. -/
def trim (w : List Rat) : List Rat :=
  match (nonsilentFrames w).head?, (nonsilentFrames w).getLast? with
  | some a, some b => (w.drop (a * 220)).take (min w.length ((b + 1) * 220) - a * 220)
  | _, _ => []

/-- Peak absolute amplitude, `speech.abs().max()` (0 on the empty signal). -/
def peak (w : List Rat) : Rat := w.foldr (fun x m => max |x| m) 0

/-- Lines 83-84: `if speech.abs().max() > max_val: speech = speech / max * max_val`. -/
def normalize (s : List Rat) : List Rat :=
  if max_val < peak s then s.map (fun x => x / peak s * max_val) else s

/-- Lines 79-88, `postprocess`: trim, rescale if the peak exceeds `max_val`,
then append `int(sample_rate * 0.2)` zero samples (exactly `sample_rate / 5`
for the sample rates at hand). -/
def postprocess (sample_rate : Nat) (speech : List Rat) : List Rat :=
  normalize (trim speech) ++ List.replicate (sample_rate / 5) 0

/-! ### Data model of `generate_audio` (webui.py lines 106-206)

The four radio choices of the interface (`inference_mode_list`) are the four
synthesis modes; the source compares the selected label against localized
strings, which we replace by a closed enumeration. -/

/-- The four inference modes offered by the interface. -/
inductive Mode
  | pretrained_voice
  | fast_replication
  | crosslingual
  | natural_language_control
deriving DecidableEq

/-- A reference-audio file: `sample_rate` is the native rate reported by
`torchaudio.info(path).sample_rate`; `data16k` is the waveform produced by
`load_wav(path, prompt_sr)`, i.e. the file resampled to `prompt_sr = 16000`. -/
structure AudioFile where
  sample_rate : Nat
  data16k : List Rat
deriving DecidableEq

/-- The arguments of one `generate_audio` call (one synthesis request). -/
structure Request where
  tts_text : String
  mode : Mode
  sft_dropdown : String
  prompt_text : String
  prompt_wav_upload : Option AudioFile
  prompt_wav_record : Option AudioFile
  instruct_text : String
  seed : Int
  stream : Bool
  speed : Rat
deriving DecidableEq

/-- One of the four engine synthesis invocations, with its arguments as passed
by `generate_audio` (lines 180, 188, 196, 203). -/
inductive EngineCall
  | inference_sft (tts_text sft_dropdown : String) (stream : Bool) (speed : Rat)
  | inference_zero_shot (tts_text prompt_text : String) (prompt_speech_16k : List Rat)
      (stream : Bool) (speed : Rat)
  | inference_cross_lingual (tts_text : String) (prompt_speech_16k : List Rat)
      (stream : Bool) (speed : Rat)
  | inference_instruct (tts_text sft_dropdown instruct_text : String)
      (stream : Bool) (speed : Rat)
deriving DecidableEq

/-- The engine's lazy chunk stream: the raw `tts_speech` chunks it emits (each
already flattened to a sample list), and whether it raises after the last
emitted chunk (a mid-stream failure). -/
structure EngineStream where
  chunks : List (List Rat)
  error : Bool

/-- The external `cosyvoice` model object: its capability flag
`cosyvoice.instruct`, its fixed native `cosyvoice.sample_rate`, and its four
synthesis generators folded into one function on `EngineCall`. -/
structure Engine where
  instruct : Bool
  sample_rate : Nat
  run : EngineCall → EngineStream

/-- Identifier of a localized `gr.Warning` / `gr.Info` message. -/
inductive MsgKey
  | nlp_model_warn
  | instruct_text_required
  | prompt_wav_ignored
  | no_crosslingual_support
  | crosslingual_instruct_ignored
  | crosslingual_prompt_audio_required
  | crosslingual_language_reminder
  | prompt_audio_empty
  | sample_rate_error
  | pretrained_voice_extra
  | pretrained_model_empty
  | prompt_text_empty
  | instruct_text_ignored
deriving DecidableEq

/-- Observable steps of one `generate_audio` call, in execution order. -/
inductive Event
  | warn (k : MsgKey)
  | info (k : MsgKey)
  | yieldChunk (sample_rate : Nat) (samples : List Rat)
  | setSeed (seed : Int)
  | engineCall (c : EngineCall)
deriving DecidableEq

/-- A Python exception escaping `generate_audio`. -/
inductive PyErr
  | typeError
  | synthesisFailed
deriving DecidableEq

/-- How one `generate_audio` call ends: normal generator exhaustion, or an
uncaught exception. -/
inductive Outcome
  | ok
  | exn (e : PyErr)
deriving DecidableEq

/-- The full observable behaviour of one `generate_audio` call. -/
structure Trace where
  events : List Event
  outcome : Outcome
deriving DecidableEq

/-- `np.zeros(n)`: the silent placeholder `default_data` has length
`cosyvoice.sample_rate`. -/
def silence (n : Nat) : List Rat := List.replicate n 0

/-- Lines 118-123: the reference audio actually used; the upload takes
precedence over the recording. -/
def select_prompt_wav (up rec : Option AudioFile) : Option AudioFile :=
  match up with
  | some u => some u
  | none =>
    match rec with
    | some v => some v
    | none => none

/-- `load_wav(prompt_wav, prompt_sr)` — the reference file resampled to
16 kHz.  (Modelled from the spec: `load_wav` lives in
`cosyvoice.utils.file_utils`, outside this repository; per §4.4 it loads the
reference audio at 16 kHz, which is the `data16k` field.  The `none` case is
unreachable from `dispatch`.) -/
def load_wav (pw : Option AudioFile) : List Rat :=
  match pw with
  | some af => af.data16k
  | none => []

/-- The native sample rate `torchaudio.info(prompt_wav).sample_rate`, defined
for present files (line 155 is only evaluated without raising when
`prompt_wav` is not `None`). -/
def info_sample_rate (pw : Option AudioFile) : Nat :=
  match pw with
  | some af => af.sample_rate
  | none => 0

/-- The silent placeholder yield `(cosyvoice.sample_rate, default_data)`. -/
def silenceYield (eng : Engine) : Event :=
  Event.yieldChunk eng.sample_rate (silence eng.sample_rate)

/-- A conditional `gr.Warning` followed by the silent placeholder yield (the
invariable shape of every blocking check of the source). -/
def wy (c : Bool) (k : MsgKey) (eng : Engine) : List Event :=
  if c then [Event.warn k, silenceYield eng] else []

/-- A conditional `gr.Info` message (the shape of every advisory check). -/
def inf (c : Bool) (k : MsgKey) : List Event :=
  if c then [Event.info k] else []

/-- Lines 124-175: the flat sequence of validation checks of `generate_audio`.
Each failed blocking check emits a `gr.Warning` and yields the silent
placeholder — and then execution FALLS THROUGH to the next check (there is no
`return`).  Line 155 evaluates `torchaudio.info(prompt_wav).sample_rate`
unconditionally inside the FastReplication/CrossLingual block, so when
`prompt_wav` is `None` the call raises `TypeError` there, after the events
already produced. -/
def validate (eng : Engine) (r : Request) : List Event × Option PyErr :=
  let pw := select_prompt_wav r.prompt_wav_upload r.prompt_wav_record
  -- lines 125-133: natural-language-control checks
  let e1 : List Event :=
    if r.mode = Mode.natural_language_control then
      wy (!eng.instruct) MsgKey.nlp_model_warn eng
        ++ wy (r.instruct_text == "") MsgKey.instruct_text_required eng
        ++ inf (pw.isSome || !(r.prompt_text == "")) MsgKey.prompt_wav_ignored
    else []
  -- lines 135-146: cross-lingual checks (the language reminder is unconditional)
  let e2 : List Event :=
    if r.mode = Mode.crosslingual then
      wy eng.instruct MsgKey.no_crosslingual_support eng
        ++ inf (!(r.instruct_text == "")) MsgKey.crosslingual_instruct_ignored
        ++ wy pw.isNone MsgKey.crosslingual_prompt_audio_required eng
        ++ [Event.info MsgKey.crosslingual_language_reminder]
    else []
  -- lines 148-154: shared FastReplication/CrossLingual prompt-audio check
  let e3a : List Event :=
    if r.mode = Mode.fast_replication ∨ r.mode = Mode.crosslingual then
      wy pw.isNone MsgKey.prompt_audio_empty eng
    else []
  -- line 155: torchaudio.info(None) raises
  if (r.mode = Mode.fast_replication ∨ r.mode = Mode.crosslingual) ∧ pw = none then
    (e1 ++ e2 ++ e3a, some PyErr.typeError)
  else
    -- lines 155-161: sample-rate check
    let e3b : List Event :=
      if r.mode = Mode.fast_replication ∨ r.mode = Mode.crosslingual then
        wy (decide (info_sample_rate pw < 16000)) MsgKey.sample_rate_error eng
      else []
    -- lines 163-168: pretrained-voice checks
    let e4 : List Event :=
      if r.mode = Mode.pretrained_voice then
        inf (!(r.instruct_text == "") || pw.isSome || !(r.prompt_text == ""))
            MsgKey.pretrained_voice_extra
          ++ wy (r.sft_dropdown == "") MsgKey.pretrained_model_empty eng
      else []
    -- lines 170-175: fast-replication checks
    let e5 : List Event :=
      if r.mode = Mode.fast_replication then
        wy (r.prompt_text == "") MsgKey.prompt_text_empty eng
          ++ inf (!(r.instruct_text == "")) MsgKey.instruct_text_ignored
      else []
    (e1 ++ e2 ++ e3a ++ e3b ++ e4 ++ e5, none)

/-- Lines 177-206: the dispatch chain.  Each branch seeds the global random
state (`set_all_random_seed(seed)`), invokes the engine generator, and yields
`(cosyvoice.sample_rate, chunk)` for every emitted chunk; an engine exception
mid-stream escapes after the prior chunks were delivered. -/
def dispatch (eng : Engine) (r : Request) : List Event × Outcome :=
  let pw := select_prompt_wav r.prompt_wav_upload r.prompt_wav_record
  if r.mode = Mode.pretrained_voice then
    let c := EngineCall.inference_sft r.tts_text r.sft_dropdown r.stream r.speed
    let s := eng.run c
    ([Event.setSeed r.seed, Event.engineCall c]
       ++ s.chunks.map (fun ch => Event.yieldChunk eng.sample_rate ch),
     if s.error then Outcome.exn PyErr.synthesisFailed else Outcome.ok)
  else if r.mode = Mode.fast_replication then
    let prompt_speech_16k := postprocess eng.sample_rate (load_wav pw)
    let c := EngineCall.inference_zero_shot r.tts_text r.prompt_text prompt_speech_16k
               r.stream r.speed
    let s := eng.run c
    ([Event.setSeed r.seed, Event.engineCall c]
       ++ s.chunks.map (fun ch => Event.yieldChunk eng.sample_rate ch),
     if s.error then Outcome.exn PyErr.synthesisFailed else Outcome.ok)
  else if r.mode = Mode.crosslingual then
    let prompt_speech_16k := postprocess eng.sample_rate (load_wav pw)
    let c := EngineCall.inference_cross_lingual r.tts_text prompt_speech_16k r.stream r.speed
    let s := eng.run c
    ([Event.setSeed r.seed, Event.engineCall c]
       ++ s.chunks.map (fun ch => Event.yieldChunk eng.sample_rate ch),
     if s.error then Outcome.exn PyErr.synthesisFailed else Outcome.ok)
  else
    let c := EngineCall.inference_instruct r.tts_text r.sft_dropdown r.instruct_text
               r.stream r.speed
    let s := eng.run c
    ([Event.setSeed r.seed, Event.engineCall c]
       ++ s.chunks.map (fun ch => Event.yieldChunk eng.sample_rate ch),
     if s.error then Outcome.exn PyErr.synthesisFailed else Outcome.ok)

/-- Lines 106-206, `generate_audio`: the validation checks run first; if they
raise, the generator dies there; otherwise the dispatch chain always runs
(validation never returns early). -/
def generate_audio (eng : Engine) (r : Request) : Trace :=
  match validate eng r with
  | (ev, some e) => { events := ev, outcome := Outcome.exn e }
  | (ev, none) =>
    let d := dispatch eng r
    { events := ev ++ d.1, outcome := d.2 }

/-- Lines 74-76, `generate_seed`: `random.randint(1, 100000000)`.  Python's
`random.randint(a, b)` returns `a + (draw mod (b - a + 1))` for an arbitrary
underlying pseudo-random draw `g`, which we take as a parameter. -/
def randint (lo hi : Int) (g : Nat) : Int := lo + (g : Int) % (hi - lo + 1)

/-- The seed produced by the dice button. -/
def generate_seed (g : Nat) : Int := randint 1 100000000 g

/-! ### Derived views of a trace -/

/-- The chunks yielded to the caller, in order. -/
def yieldsOf (es : List Event) : List (Nat × List Rat) :=
  es.filterMap fun e =>
    match e with
    | Event.yieldChunk sr s => some (sr, s)
    | _ => none

/-- The engine synthesis invocations of a trace, in order. -/
def callsOf (es : List Event) : List EngineCall :=
  es.filterMap fun e =>
    match e with
    | Event.engineCall c => some c
    | _ => none

/-- Whether an event is a seeding or an engine invocation. -/
def isCtrl : Event → Bool
  | Event.setSeed _ => true
  | Event.engineCall _ => true
  | _ => false

/-- The engine operation the spec (§4.4) assigns to a request's mode, with the
request's fields as arguments; FastReplication and CrossLingual feed the
post-processed 16 kHz reference audio. -/
def expected_call (eng : Engine) (r : Request) : EngineCall :=
  let pw := select_prompt_wav r.prompt_wav_upload r.prompt_wav_record
  match r.mode with
  | Mode.pretrained_voice => EngineCall.inference_sft r.tts_text r.sft_dropdown r.stream r.speed
  | Mode.fast_replication =>
      EngineCall.inference_zero_shot r.tts_text r.prompt_text
        (postprocess eng.sample_rate (load_wav pw)) r.stream r.speed
  | Mode.crosslingual =>
      EngineCall.inference_cross_lingual r.tts_text
        (postprocess eng.sample_rate (load_wav pw)) r.stream r.speed
  | Mode.natural_language_control =>
      EngineCall.inference_instruct r.tts_text r.sft_dropdown r.instruct_text r.stream r.speed

/-- Whether some blocking validation check of the source fires for the
request (each such check emits a warning and the silent placeholder). -/
def blocking (eng : Engine) (r : Request) : Bool :=
  let pw := select_prompt_wav r.prompt_wav_upload r.prompt_wav_record
  match r.mode with
  | Mode.natural_language_control => !eng.instruct || r.instruct_text == ""
  | Mode.crosslingual =>
      eng.instruct || pw.isNone || decide (info_sample_rate pw < 16000)
  | Mode.fast_replication =>
      pw.isNone || decide (info_sample_rate pw < 16000) || r.prompt_text == ""
  | Mode.pretrained_voice => r.sft_dropdown == ""

/-- A request passes validation iff no blocking check fires. -/
def canProceed (eng : Engine) (r : Request) : Bool := !blocking eng r

/-- The crash condition of line 155: `torchaudio.info(None)` raises when the
mode needs reference audio but none was supplied. -/
def crashes (r : Request) : Bool :=
  (decide (r.mode = Mode.fast_replication) || decide (r.mode = Mode.crosslingual))
    && (select_prompt_wav r.prompt_wav_upload r.prompt_wav_record).isNone

/-- The spec's `AudioChunk` (§3): sample rate, samples, and a final-chunk
marker.  The source's generator has no explicit flag; generator exhaustion
after the last yield is what marks it final, which `toChunks` makes explicit. -/
structure AudioChunk where
  sampleRate : Nat
  samples : List Rat
  isFinal : Bool
deriving DecidableEq

/-- View a yielded stream as the spec's `AudioChunk` sequence: the last chunk
(and only it) is final. -/
def toChunks : List (Nat × List Rat) → List AudioChunk
  | [] => []
  | [p] => [{ sampleRate := p.1, samples := p.2, isFinal := true }]
  | p :: q :: rest =>
      { sampleRate := p.1, samples := p.2, isFinal := false } :: toChunks (q :: rest)

/-! ### Basic facts about `peak`, `normalize`, `mse` and `trim` -/

theorem peak_nil : peak ([] : List Rat) = 0 := rfl

theorem peak_cons (x : Rat) (l : List Rat) : peak (x :: l) = max |x| (peak l) := rfl

theorem peak_nonneg (l : List Rat) : 0 ≤ peak l := by
  induction l with
  | nil => exact le_refl 0
  | cons x l ih => exact le_trans ih (le_max_right _ _)

theorem peak_append (a b : List Rat) : peak (a ++ b) = max (peak a) (peak b) := by
  induction a with
  | nil => exact (max_eq_right (peak_nonneg b)).symm
  | cons x a ih =>
      rw [List.cons_append, peak_cons, peak_cons, ih, max_assoc]

theorem peak_replicate_zero (n : Nat) : peak (List.replicate n (0 : Rat)) = 0 := by
  induction n with
  | zero => rfl
  | succ n ih =>
      rw [List.replicate_succ, peak_cons, ih, abs_zero, max_self]

theorem peak_take_le (n : Nat) (l : List Rat) : peak (l.take n) ≤ peak l := by
  induction l generalizing n with
  | nil => simp
  | cons x l ih =>
      cases n with
      | zero => exact peak_nonneg _
      | succ n =>
          rw [List.take_succ_cons, peak_cons, peak_cons]
          exact max_le_max (le_refl _) (ih n)

theorem peak_drop_le (n : Nat) (l : List Rat) : peak (l.drop n) ≤ peak l := by
  induction l generalizing n with
  | nil => simp
  | cons x l ih =>
      cases n with
      | zero => exact le_refl _
      | succ n =>
          rw [List.drop_succ_cons, peak_cons]
          exact le_trans (ih n) (le_max_right _ _)

theorem peak_map_mul (l : List Rat) (c : Rat) (hc : 0 ≤ c) :
    peak (l.map (fun x => x * c)) = peak l * c := by
  induction l with
  | nil => simp [peak_nil]
  | cons x l ih =>
      rw [List.map_cons, peak_cons, peak_cons, ih, abs_mul, abs_of_nonneg hc,
        max_mul_of_nonneg _ _ hc]

theorem peak_trim_le (w : List Rat) : peak (trim w) ≤ peak w := by
  unfold trim
  cases h1 : (nonsilentFrames w).head? with
  | none => rw [peak_nil]; exact peak_nonneg w
  | some a =>
      cases h2 : (nonsilentFrames w).getLast? with
      | none => rw [peak_nil]; exact peak_nonneg w
      | some b => exact le_trans (peak_take_le _ _) (peak_drop_le _ _)

/-- The rescaled signal's peak is exactly the ceiling. -/
theorem peak_normalize_of_lt (s : List Rat) (h : max_val < peak s) :
    peak (normalize s) = max_val := by
  have hp : (0 : Rat) < peak s := lt_trans (by norm_num [max_val]) h
  have hmap : (fun x => x / peak s * max_val) = (fun x => x * (max_val / peak s)) := by
    funext x
    rw [div_mul_eq_mul_div, mul_div_assoc]
  rw [normalize, if_pos h, hmap,
    peak_map_mul _ _ (div_nonneg (by norm_num [max_val]) (le_of_lt hp)),
    mul_comm, div_mul_cancel₀ _ (ne_of_gt hp)]

theorem normalize_of_le (s : List Rat) (h : peak s ≤ max_val) : normalize s = s := by
  rw [normalize, if_neg (not_lt.mpr h)]

/-- After `normalize` the peak never exceeds the ceiling. -/
theorem peak_normalize_le (s : List Rat) : peak (normalize s) ≤ max_val := by
  rcases le_or_lt (peak s) max_val with h | h
  · rw [normalize_of_le s h]; exact h
  · rw [peak_normalize_of_lt s h]

theorem mse_nonneg (w : List Rat) (j : Nat) : 0 ≤ mse w j := by
  unfold mse
  apply div_nonneg _ (by norm_num)
  apply List.sum_nonneg
  intro x hx
  rcases List.mem_map.mp hx with ⟨y, _, rfl⟩
  exact mul_self_nonneg y

theorem refPow_nonneg (w : List Rat) : 0 ≤ refPow w := by
  unfold refPow
  induction (List.range (nFrames w)).map (mse w) with
  | nil => exact le_refl 0
  | cons x l ih => exact le_trans ih (le_max_right _ _)

/-- A frame achieving the reference energy is never classified silent (this
also covers all-silent signals, thanks to the `amin` clamp). -/
theorem nonsilent_of_eq_refPow (w : List Rat) (j : Nat) (h : mse w j = refPow w) :
    nonsilent w j = true := by
  unfold nonsilent
  rw [h, decide_eq_true_iff]
  have hx : (0 : Rat) < max (1 / 10000000000) (refPow w) :=
    lt_of_lt_of_le (by norm_num) (le_max_left _ _)
  linarith

theorem nFrames_of_short (w : List Rat) (h : w.length < 220) : nFrames w = 1 := by
  unfold nFrames
  rw [Nat.div_eq_of_lt h]

theorem refPow_of_short (w : List Rat) (h : w.length < 220) : refPow w = mse w 0 := by
  unfold refPow
  rw [nFrames_of_short w h]
  show max (mse w 0) 0 = mse w 0
  exact max_eq_left (mse_nonneg w 0)

theorem nonsilentFrames_of_short (w : List Rat) (h : w.length < 220) :
    nonsilentFrames w = [0] := by
  have hns : nonsilent w 0 = true :=
    nonsilent_of_eq_refPow w 0 (refPow_of_short w h).symm
  unfold nonsilentFrames
  rw [nFrames_of_short w h]
  show List.filter (fun j => nonsilent w j) [0] = [0]
  simp [hns]

/-- A signal shorter than one hop is never trimmed (its only frame carries the
reference energy). -/
theorem trim_short (w : List Rat) (h : w.length < 220) : trim w = w := by
  unfold trim
  rw [nonsilentFrames_of_short w h]
  show (w.drop (0 * 220)).take (min w.length ((0 + 1) * 220) - 0 * 220) = w
  rw [Nat.zero_mul, List.drop_zero, Nat.sub_zero, Nat.zero_add, Nat.one_mul,
    min_eq_left (le_of_lt h), List.take_length]

theorem padded_replicate_zero (m : Nat) :
    padded (List.replicate m (0 : Rat)) = List.replicate (220 + m + 220) 0 := by
  unfold padded
  rw [List.replicate_add, List.replicate_add]

theorem mse_replicate_zero (m j : Nat) : mse (List.replicate m (0 : Rat)) j = 0 := by
  unfold mse
  rw [padded_replicate_zero, List.drop_replicate, List.take_replicate,
    List.map_replicate, mul_zero, List.sum_replicate, smul_zero, zero_div]

theorem foldr_max_zero (l : List Rat) (h : ∀ x ∈ l, x = 0) : l.foldr max 0 = 0 := by
  induction l with
  | nil => rfl
  | cons x l ih =>
      rw [List.foldr_cons, h x (List.mem_cons_self x l),
        ih (fun y hy => h y (List.mem_cons_of_mem _ hy)), max_self]

theorem refPow_replicate_zero (m : Nat) : refPow (List.replicate m (0 : Rat)) = 0 := by
  unfold refPow
  apply foldr_max_zero
  intro x hx
  rcases List.mem_map.mp hx with ⟨j, _, rfl⟩
  exact mse_replicate_zero m j

/-- An all-zero signal is never trimmed: every frame is within `top_db` of the
(zero) reference because of the `amin` clamp, so `librosa.effects.trim` keeps
everything. -/
theorem trim_replicate_zero (m : Nat) :
    trim (List.replicate m (0 : Rat)) = List.replicate m 0 := by
  have hns : ∀ j, nonsilent (List.replicate m (0 : Rat)) j = true := fun j =>
    nonsilent_of_eq_refPow _ j (by rw [mse_replicate_zero, refPow_replicate_zero])
  have hfilter : nonsilentFrames (List.replicate m (0 : Rat))
      = List.range (nFrames (List.replicate m (0 : Rat))) :=
    List.filter_eq_self.mpr (fun a _ => hns a)
  have hnf : nFrames (List.replicate m (0 : Rat)) = m / 220 + 1 := by
    unfold nFrames
    rw [List.length_replicate, Nat.add_comm]
  unfold trim
  rw [hfilter, hnf]
  have h1 : (List.range (m / 220 + 1)).head? = some 0 := by
    rw [List.head?_range]
    simp
  have h2 : (List.range (m / 220 + 1)).getLast? = some (m / 220) := by
    rw [List.range_succ]
    exact List.getLast?_concat _
  rw [h1, h2]
  show ((List.replicate m (0 : Rat)).drop (0 * 220)).take
      (min (List.replicate m (0 : Rat)).length ((m / 220 + 1) * 220) - 0 * 220)
      = List.replicate m 0
  have hlt : m < (m / 220 + 1) * 220 := by omega
  rw [Nat.zero_mul, List.drop_zero, Nat.sub_zero, List.length_replicate,
    min_eq_left (le_of_lt hlt), List.take_replicate, min_self]

theorem postprocess_replicate_zero (sample_rate m : Nat) :
    postprocess sample_rate (List.replicate m (0 : Rat))
      = List.replicate (m + sample_rate / 5) 0 := by
  unfold postprocess
  rw [trim_replicate_zero,
    normalize_of_le _ (by rw [peak_replicate_zero]; norm_num [max_val]),
    ← List.replicate_add]

/-! ### Structure of the `generate_audio` trace -/

/-- Every dispatch branch has the same shape: seed, engine invocation with the
mode's operation, then one yield per emitted chunk; the outcome reflects a
mid-stream engine failure. -/
theorem dispatch_eq (eng : Engine) (r : Request) :
    dispatch eng r =
      ([Event.setSeed r.seed, Event.engineCall (expected_call eng r)]
         ++ ((eng.run (expected_call eng r)).chunks.map
              (fun ch => Event.yieldChunk eng.sample_rate ch)),
       if (eng.run (expected_call eng r)).error then Outcome.exn PyErr.synthesisFailed
       else Outcome.ok) := by
  cases hm : r.mode <;> simp [dispatch, expected_call, hm]

theorem mem_ite_nil_iff {α : Type} {c : Prop} [inst : Decidable c] {l : List α} {e : α} :
    (e ∈ if c then l else []) ↔ c ∧ e ∈ l := by
  by_cases hc : c
  · simp [hc]
  · simp [hc]

/-- Validation emits only warnings, infos and silence yields — never a seed
set or an engine invocation. -/
theorem validate_no_ctrl (eng : Engine) (r : Request) :
    ∀ e ∈ (validate eng r).1, isCtrl e = false := by
  intro e he
  cases e <;> try rfl
  all_goals
    simp only [validate, wy, inf] at he
  all_goals
    split at he <;>
      simp only [List.mem_append, mem_ite_nil_iff, silenceYield, List.mem_cons,
        List.not_mem_nil, or_false] at he <;>
      simp_all

theorem crashes_iff (r : Request) : crashes r = true ↔
    ((r.mode = Mode.fast_replication ∨ r.mode = Mode.crosslingual)
      ∧ select_prompt_wav r.prompt_wav_upload r.prompt_wav_record = none) := by
  simp [crashes, Option.isNone_iff_eq_none]

/-- The second component of `validate` records exactly the
`torchaudio.info(None)` crash of line 155. -/
theorem validate_snd_eq (eng : Engine) (r : Request) :
    (validate eng r).2 = if crashes r = true then some PyErr.typeError else none := by
  by_cases hc : (r.mode = Mode.fast_replication ∨ r.mode = Mode.crosslingual)
      ∧ select_prompt_wav r.prompt_wav_upload r.prompt_wav_record = none
  · simp only [validate]
    rw [if_pos hc, if_pos ((crashes_iff r).mpr hc)]
  · simp only [validate]
    rw [if_neg hc, if_neg (fun hcr => hc ((crashes_iff r).mp hcr))]

theorem yieldsOf_append (a b : List Event) : yieldsOf (a ++ b) = yieldsOf a ++ yieldsOf b :=
  List.filterMap_append a b _

theorem yieldsOf_inf (c : Bool) (k : MsgKey) : yieldsOf (inf c k) = [] := by
  unfold inf
  split <;> rfl

theorem not_crashes_of_canProceed (eng : Engine) (r : Request)
    (h : canProceed eng r = true) : crashes r = false := by
  cases hm : r.mode <;> simp_all [canProceed, blocking, crashes, hm]

/-- A request that passes validation produces no silence placeholder and no
crash during the validation phase. -/
theorem validate_clean (eng : Engine) (r : Request) (h : canProceed eng r = true) :
    yieldsOf (validate eng r).1 = [] ∧ (validate eng r).2 = none := by
  constructor
  · cases hm : r.mode <;>
      simp_all [canProceed, blocking, hm, validate, wy, inf, yieldsOf_append,
        yieldsOf_inf, yieldsOf, Option.isNone_iff_eq_none, Option.isSome_iff_ne_none]
  · rw [validate_snd_eq, not_crashes_of_canProceed eng r h]
    rfl

/-- When validation does not crash, the trace is the validation events
followed by the dispatch events, with the dispatch outcome. -/
theorem generate_audio_of_ok (eng : Engine) (r : Request)
    (h : (validate eng r).2 = none) :
    (generate_audio eng r).events = (validate eng r).1 ++ (dispatch eng r).1
      ∧ (generate_audio eng r).outcome = (dispatch eng r).2 := by
  unfold generate_audio
  have hp : validate eng r = ((validate eng r).1, none) := by
    rw [← h]
  rw [hp]
  exact ⟨rfl, rfl⟩

/-- When validation crashes at line 155, the trace stops with the `TypeError`
after the validation events. -/
theorem generate_audio_of_crash (eng : Engine) (r : Request) (h : crashes r = true) :
    (generate_audio eng r).events = (validate eng r).1
      ∧ (generate_audio eng r).outcome = Outcome.exn PyErr.typeError := by
  unfold generate_audio
  have hsnd : (validate eng r).2 = some PyErr.typeError := by
    rw [validate_snd_eq, h]
    rfl
  have hp : validate eng r = ((validate eng r).1, some PyErr.typeError) := by
    rw [← hsnd]
  rw [hp]
  exact ⟨rfl, rfl⟩

theorem yieldsOf_map_yield (sr : Nat) (l : List (List Rat)) :
    yieldsOf (l.map (fun ch => Event.yieldChunk sr ch)) = l.map (fun ch => (sr, ch)) := by
  induction l with
  | nil => rfl
  | cons x xs ih =>
      rw [List.map_cons, List.map_cons]
      show (sr, x) :: yieldsOf (xs.map (fun ch => Event.yieldChunk sr ch))
        = (sr, x) :: xs.map (fun ch => (sr, ch))
      rw [ih]

theorem callsOf_append (a b : List Event) : callsOf (a ++ b) = callsOf a ++ callsOf b :=
  List.filterMap_append a b _

theorem callsOf_map_yield (sr : Nat) (l : List (List Rat)) :
    callsOf (l.map (fun ch => Event.yieldChunk sr ch)) = [] := by
  induction l with
  | nil => rfl
  | cons x xs ih =>
      rw [List.map_cons]
      show callsOf (xs.map (fun ch => Event.yieldChunk sr ch)) = []
      exact ih

theorem callsOf_validate (eng : Engine) (r : Request) : callsOf (validate eng r).1 = [] := by
  rw [callsOf, List.filterMap_eq_nil_iff]
  intro e he
  have hc := validate_no_ctrl eng r e he
  cases e <;> simp_all [isCtrl]

/-- The chunk stream of a validated request: one yield per engine chunk,
tagged with the engine's native sample rate, in emission order. -/
theorem yieldsOf_generate_audio (eng : Engine) (r : Request)
    (h : canProceed eng r = true) :
    yieldsOf (generate_audio eng r).events
      = (eng.run (expected_call eng r)).chunks.map (fun ch => (eng.sample_rate, ch)) := by
  obtain ⟨hy, he⟩ := validate_clean eng r h
  obtain ⟨hev, _⟩ := generate_audio_of_ok eng r he
  rw [hev, yieldsOf_append, hy, dispatch_eq]
  show yieldsOf ([Event.setSeed r.seed, Event.engineCall (expected_call eng r)]
        ++ (eng.run (expected_call eng r)).chunks.map (fun ch => Event.yieldChunk eng.sample_rate ch))
      = (eng.run (expected_call eng r)).chunks.map (fun ch => (eng.sample_rate, ch))
  rw [yieldsOf_append, yieldsOf_map_yield]
  rfl

/-- The outcome of a validated request reflects a mid-stream engine failure
and nothing else. -/
theorem outcome_generate_audio (eng : Engine) (r : Request)
    (h : canProceed eng r = true) :
    (generate_audio eng r).outcome
      = if (eng.run (expected_call eng r)).error then Outcome.exn PyErr.synthesisFailed
        else Outcome.ok := by
  obtain ⟨_, he⟩ := validate_clean eng r h
  obtain ⟨_, hout⟩ := generate_audio_of_ok eng r he
  rw [hout, dispatch_eq]

theorem toChunks_proj (l : List (Nat × List Rat)) :
    (toChunks l).map (fun ch => (ch.sampleRate, ch.samples)) = l := by
  induction l with
  | nil => rfl
  | cons p l ih =>
      cases l with
      | nil => rfl
      | cons q rest =>
          have hstep : toChunks (p :: q :: rest)
              = ({ sampleRate := p.1, samples := p.2, isFinal := false } : AudioChunk)
                  :: toChunks (q :: rest) := rfl
          rw [hstep, List.map_cons, ih]

theorem toChunks_getLast_isFinal :
    ∀ (l : List (Nat × List Rat)) (ch : AudioChunk),
      (toChunks l).getLast? = some ch → ch.isFinal = true
  | [], ch, h => by simp [toChunks] at h
  | [p], ch, h => by
      have h2 : some ({ sampleRate := p.1, samples := p.2, isFinal := true } : AudioChunk)
          = some ch := h
      injection h2 with h3
      rw [← h3]
  | p :: q :: rest, ch, h => by
      apply toChunks_getLast_isFinal (q :: rest) ch
      have hstep : toChunks (p :: q :: rest)
          = ({ sampleRate := p.1, samples := p.2, isFinal := false } : AudioChunk)
              :: toChunks (q :: rest) := rfl
      rw [hstep] at h
      cases rest with
      | nil =>
          rw [show toChunks [q]
              = [({ sampleRate := q.1, samples := q.2, isFinal := true } : AudioChunk)] from rfl]
            at h ⊢
          rw [List.getLast?_cons_cons] at h
          exact h
      | cons a as =>
          rw [show toChunks (q :: a :: as)
              = ({ sampleRate := q.1, samples := q.2, isFinal := false } : AudioChunk)
                  :: toChunks (a :: as) from rfl] at h ⊢
          rw [List.getLast?_cons_cons] at h
          exact h

/-! ### Concrete fixtures for witnesses and counterexamples -/

/-- A small engine without instruct support: native rate 16, one-chunk streams. -/
def engT : Engine :=
  { instruct := false, sample_rate := 16, run := fun _ => { chunks := [[1]], error := false } }

/-- An engine with instruct support. -/
def engI : Engine :=
  { instruct := true, sample_rate := 16, run := fun _ => { chunks := [[1]], error := false } }

/-- An engine whose stream raises after emitting two chunks. -/
def engErr : Engine :=
  { instruct := false, sample_rate := 16, run := fun _ => { chunks := [[1], [2]], error := true } }

/-- A reference file whose native rate (8 kHz) is below the 16 kHz minimum. -/
def fileLow : AudioFile := { sample_rate := 8000, data16k := [1] }

/-- A valid 16 kHz reference file. -/
def fileOk : AudioFile := { sample_rate := 16000, data16k := [1] }

/-- Scenario B: CrossLingual with an 8 kHz reference upload. -/
def reqB : Request :=
  { tts_text := "hello", mode := Mode.crosslingual, sft_dropdown := "", prompt_text := "",
    prompt_wav_upload := some fileLow, prompt_wav_record := none,
    instruct_text := "", seed := 0, stream := false, speed := 1 }

/-- A FastReplication request with no reference audio at all. -/
def reqNoRef : Request :=
  { tts_text := "hi", mode := Mode.fast_replication, sft_dropdown := "", prompt_text := "x",
    prompt_wav_upload := none, prompt_wav_record := none,
    instruct_text := "", seed := 0, stream := false, speed := 1 }

/-- Scenario C: a valid FastReplication request. -/
def reqC : Request :=
  { tts_text := "hello", mode := Mode.fast_replication, sft_dropdown := "", prompt_text := "hi",
    prompt_wav_upload := some fileOk, prompt_wav_record := none,
    instruct_text := "", seed := 42, stream := false, speed := 1 }

/-- A valid PretrainedVoice request. -/
def reqA : Request :=
  { tts_text := "hello", mode := Mode.pretrained_voice, sft_dropdown := "v1", prompt_text := "",
    prompt_wav_upload := none, prompt_wav_record := none,
    instruct_text := "", seed := 3, stream := true, speed := 1 }

/-- A valid InstructControl request. -/
def reqI : Request :=
  { tts_text := "hello", mode := Mode.natural_language_control, sft_dropdown := "v1",
    prompt_text := "", prompt_wav_upload := none, prompt_wav_record := none,
    instruct_text := "speak slowly", seed := 5, stream := false, speed := 1 }

/-- A valid PretrainedVoice request with seed 7. -/
def reqS : Request :=
  { tts_text := "hello", mode := Mode.pretrained_voice, sft_dropdown := "v1", prompt_text := "",
    prompt_wav_upload := none, prompt_wav_record := none,
    instruct_text := "", seed := 7, stream := false, speed := 1 }

/-! ### The claims -/

/-- C1 (code bug evidence): on Scenario B — CrossLingual with an 8 kHz
reference — the claim requires a response of exactly one silent chunk and no
engine synthesis call; the code instead yields the silent placeholder for the
`InvalidSampleRate`-class warning and then FALLS THROUGH (no `return` after
the `yield` at line 161), so the engine is still invoked once and its chunks
follow the silence in the same stream: two yields and one engine call. -/
theorem C1_blocked_fallthrough :
    (yieldsOf (generate_audio engT reqB).events).length = 2
    ∧ (callsOf (generate_audio engT reqB).events).length = 1
    ∧ Event.warn MsgKey.sample_rate_error ∈ (generate_audio engT reqB).events
    ∧ (yieldsOf (generate_audio engT reqB).events).head?
        = some (engT.sample_rate, silence engT.sample_rate)
    ∧ canProceed engT reqB = false := by
  refine ⟨?_, ?_, ?_, ?_, ?_⟩ <;> decide

/-- C3 (code bug evidence): for a FastReplication request with both
reference-audio sources absent, the claim requires validation to complete
without raising; the code warns, yields the placeholder, and then evaluates
`torchaudio.info(prompt_wav)` at line 155 with `prompt_wav = None`, which
raises a `TypeError` that escapes the generator. -/
theorem C3_validation_raises :
    (generate_audio engT reqNoRef).outcome = Outcome.exn PyErr.typeError
    ∧ Event.warn MsgKey.prompt_audio_empty ∈ (generate_audio engT reqNoRef).events
    ∧ (callsOf (generate_audio engT reqNoRef).events).length = 0 := by
  refine ⟨?_, ?_, ?_⟩ <;> decide

/-- C2: for every request that passes validation, the response stream re-emits
the engine's chunks in their original emission order, each tagged with the
engine's fixed native sample rate, and — viewing the stream as the spec's
`AudioChunk` sequence, where exhaustion of the generator after the last yield
is what marks finality — the last chunk carries `isFinal = true`. -/
theorem C2_stream_relay (eng : Engine) (r : Request) (h : canProceed eng r = true) :
    yieldsOf (generate_audio eng r).events
        = (eng.run (expected_call eng r)).chunks.map (fun ch => (eng.sample_rate, ch))
    ∧ ∀ ch : AudioChunk,
        (toChunks (yieldsOf (generate_audio eng r).events)).getLast? = some ch →
        ch.isFinal = true :=
  ⟨yieldsOf_generate_audio eng r h,
   fun ch hch => toChunks_getLast_isFinal _ ch hch⟩

/-- C2 witness: Scenario C — a valid FastReplication request with a 16 kHz
reference, referenceText "hi" and seed 42. -/
theorem C2_stream_relay_witness :
    yieldsOf (generate_audio engT reqC).events
        = (engT.run (expected_call engT reqC)).chunks.map (fun ch => (engT.sample_rate, ch))
    ∧ ∀ ch : AudioChunk,
        (toChunks (yieldsOf (generate_audio engT reqC).events)).getLast? = some ch →
        ch.isFinal = true :=
  C2_stream_relay engT reqC (by decide)

/-- C4: for every request that passes validation, dispatch performs exactly
one engine call, namely the operation the mode mapping assigns to the request
(`expected_call`): `inference_sft(text, speakerId, streaming, speed)` for
PretrainedVoice; post-processed 16 kHz reference audio fed to
`inference_zero_shot` for FastReplication and to `inference_cross_lingual`
for CrossLingual; `inference_instruct(text, speakerId, instructionText,
streaming, speed)` for InstructControl. -/
theorem C4_mode_mapping (eng : Engine) (r : Request) (h : canProceed eng r = true) :
    callsOf (generate_audio eng r).events = [expected_call eng r] := by
  obtain ⟨_, he⟩ := validate_clean eng r h
  obtain ⟨hev, _⟩ := generate_audio_of_ok eng r he
  rw [hev, callsOf_append, callsOf_validate, dispatch_eq]
  show [] ++ callsOf ([Event.setSeed r.seed, Event.engineCall (expected_call eng r)]
      ++ (eng.run (expected_call eng r)).chunks.map (fun ch => Event.yieldChunk eng.sample_rate ch))
    = [expected_call eng r]
  rw [List.nil_append, callsOf_append, callsOf_map_yield]
  rfl

/-- C4 witness: a valid PretrainedVoice request. -/
theorem C4_mode_mapping_witness :
    callsOf (generate_audio engT reqA).events = [expected_call engT reqA] :=
  C4_mode_mapping engT reqA (by decide)

/-- C7: for every request on which line 155 does not raise (all requests that
reach the dispatch chain), the trace contains exactly one seeding and exactly
one engine call, adjacent and in that order: `set_all_random_seed(seed)` runs
immediately before the engine call, with no other seed/engine operation of
the request anywhere else in the trace. -/
theorem C7_seed_then_synthesize (eng : Engine) (r : Request) (h : crashes r = false) :
    ∃ pre post : List Event,
      (generate_audio eng r).events
          = pre ++ Event.setSeed r.seed :: Event.engineCall (expected_call eng r) :: post
        ∧ (∀ e ∈ pre, isCtrl e = false) ∧ (∀ e ∈ post, isCtrl e = false) := by
  have he : (validate eng r).2 = none := by
    rw [validate_snd_eq, h]
    rfl
  obtain ⟨hev, _⟩ := generate_audio_of_ok eng r he
  refine ⟨(validate eng r).1,
    (eng.run (expected_call eng r)).chunks.map (fun ch => Event.yieldChunk eng.sample_rate ch),
    ?_, validate_no_ctrl eng r, ?_⟩
  · rw [hev, dispatch_eq]
    rfl
  · intro e hee
    rcases List.mem_map.mp hee with ⟨ch, _, rfl⟩
    rfl

/-- C7 witness: a valid InstructControl request on an instruct-capable engine. -/
theorem C7_seed_then_synthesize_witness :
    ∃ pre post : List Event,
      (generate_audio engI reqI).events
          = pre ++ Event.setSeed reqI.seed :: Event.engineCall (expected_call engI reqI) :: post
        ∧ (∀ e ∈ pre, isCtrl e = false) ∧ (∀ e ∈ post, isCtrl e = false) :=
  C7_seed_then_synthesize engI reqI (by decide)

/-- C8: for every validated request, the caller observes exactly the chunks
the engine emitted before a mid-stream failure, in order; when the engine
raises, the stream then terminates with the `SynthesisFailed` error (not
retried, not swallowed), and when it does not, the stream ends normally. -/
theorem C8_midstream_failure (eng : Engine) (r : Request) (h : canProceed eng r = true) :
    yieldsOf (generate_audio eng r).events
        = (eng.run (expected_call eng r)).chunks.map (fun ch => (eng.sample_rate, ch))
    ∧ ((eng.run (expected_call eng r)).error = true →
        (generate_audio eng r).outcome = Outcome.exn PyErr.synthesisFailed)
    ∧ ((eng.run (expected_call eng r)).error = false →
        (generate_audio eng r).outcome = Outcome.ok) := by
  refine ⟨yieldsOf_generate_audio eng r h, ?_, ?_⟩
  · intro herr
    rw [outcome_generate_audio eng r h, if_pos herr]
  · intro herr
    rw [outcome_generate_audio eng r h, herr]
    rfl

/-- C8 witness: Scenario D — the engine raises after two chunks; the caller
observes exactly those two chunks and then the failure. -/
theorem C8_midstream_failure_witness :
    yieldsOf (generate_audio engErr reqA).events
        = (engErr.run (expected_call engErr reqA)).chunks.map (fun ch => (engErr.sample_rate, ch))
    ∧ (generate_audio engErr reqA).outcome = Outcome.exn PyErr.synthesisFailed :=
  ⟨(C8_midstream_failure engErr reqA (by decide)).1,
   (C8_midstream_failure engErr reqA (by decide)).2.1 rfl⟩

/-- C9: `generate_seed` always returns an integer in `[1, 100000000]`
(whatever the underlying pseudo-random draw), and neither validation nor
dispatch consults it: the only seed ever applied during a request is the
`seed` field the caller supplied. -/
theorem C9_seed_range_and_isolation :
    (∀ g : Nat, 1 ≤ generate_seed g ∧ generate_seed g ≤ 100000000)
    ∧ ∀ (eng : Engine) (r : Request) (s : Int),
        Event.setSeed s ∈ (generate_audio eng r).events → s = r.seed := by
  constructor
  · intro g
    unfold generate_seed randint
    constructor <;> omega
  · intro eng r s hs
    by_cases hcr : crashes r = true
    · obtain ⟨hev, _⟩ := generate_audio_of_crash eng r hcr
      rw [hev] at hs
      exact absurd (validate_no_ctrl eng r _ hs) (by simp [isCtrl])
    · have he : (validate eng r).2 = none := by
        rw [validate_snd_eq, if_neg hcr]
      obtain ⟨hev, _⟩ := generate_audio_of_ok eng r he
      rw [hev, dispatch_eq] at hs
      rcases List.mem_append.mp hs with hs | hs
      · exact absurd (validate_no_ctrl eng r _ hs) (by simp [isCtrl])
      · rcases List.mem_append.mp hs with hs | hs
        · rcases List.mem_cons.mp hs with hs | hs
          · injection hs
          · rcases List.mem_cons.mp hs with hs | hs
            · exact absurd hs (by simp)
            · cases hs
        · rcases List.mem_map.mp hs with ⟨ch, _, hch⟩
          exact absurd hch (by simp)

/-- C9 witness: the bounds at draw 42, and the seed applied on a concrete
request is its `seed` field (7). -/
theorem C9_seed_range_and_isolation_witness :
    (1 ≤ generate_seed 42 ∧ generate_seed 42 ≤ 100000000) ∧ (7 : Int) = reqS.seed :=
  ⟨C9_seed_range_and_isolation.1 42,
   C9_seed_range_and_isolation.2 engT reqS 7 (by decide)⟩

/-- C10: the uploaded reference-audio source takes precedence over the
recorded one; the recording is used only when no upload is present; when both
are absent the request carries no reference audio — all four combinations. -/
theorem C10_upload_precedence : ∀ (a b : AudioFile),
    select_prompt_wav (some a) (some b) = some a
    ∧ select_prompt_wav (some a) none = some a
    ∧ select_prompt_wav none (some b) = some b
    ∧ select_prompt_wav (none : Option AudioFile) none = none := by
  intro a b
  exact ⟨rfl, rfl, rfl, rfl⟩

/-- C5 counterexample: `postprocess` is not idempotent.  For the all-silent
one-sample input `[0]` (at engine rate 16000 Hz), the first application keeps
the sample (the `amin` clamp makes every frame of an all-zero signal
non-silent) and appends the 0.2 s pad of 3200 zeros; the second application
trims nothing and appends ANOTHER 3200-zero pad, so the output grows on every
application. -/
theorem C5_not_idempotent :
    postprocess 16000 (postprocess 16000 [(0 : Rat)]) ≠ postprocess 16000 [(0 : Rat)] := by
  have h0 : [(0 : Rat)] = List.replicate 1 0 := rfl
  rw [h0, postprocess_replicate_zero, postprocess_replicate_zero]
  intro hEq
  have hlen := congrArg List.length hEq
  rw [List.length_replicate, List.length_replicate] at hlen
  norm_num at hlen

/-- C5 (amended): `postprocess` is NOT idempotent — re-applying it re-trims
and appends a fresh 0.2 s pad, so the output can grow (see the
counterexample) — but the no-rescaling part of the claim does hold: the
output of `postprocess` has peak at most the 0.8 ceiling, a slice of it
still does, so the second pass's normalization step is the identity. -/
theorem C5_second_pass_no_rescale (sample_rate : Nat) (w : List Rat) :
    normalize (trim (postprocess sample_rate w)) = trim (postprocess sample_rate w) := by
  apply normalize_of_le
  have h1 : peak (postprocess sample_rate w) ≤ max_val := by
    unfold postprocess
    rw [peak_append, peak_replicate_zero]
    exact max_le (peak_normalize_le _) (by norm_num [max_val])
  exact le_trans (peak_trim_le _) h1

/-- C6: inside `postprocess`, if the trimmed signal's peak exceeds the 0.8
ceiling (`max_val = 4/5`), the whole signal is rescaled pointwise by
`max_val / peak` and the resulting peak is exactly `max_val`; if the peak is
at most the ceiling — including the zero-peak case — the signal is left
untouched (no division by zero ever happens). -/
theorem C6_peak_normalization (w : List Rat) :
    (max_val < peak (trim w) →
        normalize (trim w) = (trim w).map (fun x => x / peak (trim w) * max_val)
          ∧ peak (normalize (trim w)) = max_val)
    ∧ (peak (trim w) ≤ max_val → normalize (trim w) = trim w) := by
  constructor
  · intro h
    exact ⟨by rw [normalize, if_pos h], peak_normalize_of_lt _ h⟩
  · exact normalize_of_le _

/-- C6 witness: the input `[8/5]` (peak 1.6) is rescaled to peak exactly
`4/5 = 0.8`; the all-zero input `[0]` (peak 0) is left untouched. -/
theorem C6_peak_normalization_witness :
    (normalize (trim [(8 : Rat) / 5])
        = (trim [(8 : Rat) / 5]).map (fun x => x / peak (trim [(8 : Rat) / 5]) * max_val)
      ∧ peak (normalize (trim [(8 : Rat) / 5])) = max_val)
    ∧ normalize (trim [(0 : Rat)]) = trim [(0 : Rat)] :=
  ⟨(C6_peak_normalization [(8 : Rat) / 5]).1 (by
      rw [trim_short _ (by norm_num)]
      show max_val < max |(8 : Rat) / 5| (peak [])
      rw [peak_nil, abs_of_nonneg (by norm_num : (0 : Rat) ≤ 8 / 5)]
      norm_num [max_val]),
   (C6_peak_normalization [(0 : Rat)]).2 (by
      rw [trim_short _ (by norm_num)]
      show max |(0 : Rat)| (peak []) ≤ max_val
      rw [peak_nil, abs_zero]
      norm_num [max_val])⟩

end CosyVoiceWeb
